import Mathlib

/-!
Shallow embedding of `src/lrng_es_jent.c` (LRNG Fast Entropy Source: Jitter
RNG) and proofs about its slot pool, consumer paths, refill heuristic,
entropy-rate override and runtime toggle.

The C file's module-level mutable variables become the fields of `JentState`;
the external noise source (`crypto_rng_get_bytes` on the allocated
`jitterentropy_rng`) becomes an oracle mapping the fetch call number to either
failure or the fetched bytes; `schedule_work` on the async fill work item and
the noise-source calls are tracked by counters so that theorems can observe
these external effects.  The embedding is sequential: each C function becomes
a state-passing Lean function.
-/

namespace LrngJent

/-- A byte of an entropy buffer. -/
abbrev Byte := Nat

/-- Result stream of the external NoiseSource (`crypto_rng_get_bytes` on the
`jitterentropy_rng` handle): `none` models a nonzero return code (fetch
failure), `some bytes` success with the fetched bytes.  Indexed by the number
of fetch calls made so far. -/
abbrev NoiseOracle := Nat → Option (List Byte)

/-- `struct jent_entropy_es`: one slot's buffer `e` (an array of
`LRNG_DRNG_INIT_SEED_SIZE_BYTES` bytes) and its credited bits `e_bits`. -/
structure JentEntropyEs where
  e : List Byte
  e_bits : Nat
deriving DecidableEq

/-- `enum lrng_jent_async_state`: the per-slot state tag held in the atomic
array `lrng_jent_async_set`. -/
inductive LrngJentAsyncState where
  | buffer_empty
  | buffer_filling
  | buffer_filled
  | buffer_reading
deriving DecidableEq

export LrngJentAsyncState (buffer_empty buffer_filling buffer_filled buffer_reading)

/-- Compile-time and externally supplied constants of `lrng_es_jent.c`:
`blocks` is `CONFIG_LRNG_JENT_ENTROPY_BLOCKS` (must be a power of two ≥ 4),
`seedBytes` is `LRNG_DRNG_INIT_SEED_SIZE_BYTES`, `secStrengthBits` is
`LRNG_DRNG_SECURITY_STRENGTH_BITS`, `configRate` is
`CONFIG_LRNG_JENT_ENTROPY_RATE` (the compiled-in default of `jent_entropy`),
and `stdBits` is the value returned by `lrng_get_seed_entropy_osr(true)` (the
standard oversampled seed request size, computed by `lrng_es_mgr` outside
this file). -/
structure JentConfig where
  blocks : Nat
  seedBytes : Nat
  secStrengthBits : Nat
  configRate : Nat
  stdBits : Nat
deriving DecidableEq

/-- `LRNG_JENT_ENTROPY_BLOCKS_MASK = CONFIG_LRNG_JENT_ENTROPY_BLOCKS - 1`. -/
def LRNG_JENT_ENTROPY_BLOCKS_MASK (cfg : JentConfig) : Nat :=
  cfg.blocks - 1

/-- The module-level mutable state of `lrng_es_jent.c`.  `idx` is the static
consumer cursor in `lrng_jent_async_get`, kept as its u32 value (the C
initializes it to `-1`, i.e. `2^32 - 1`).  `fetchCount` counts the calls of
`crypto_rng_get_bytes` made so far (the oracle index of the next call) and
`scheduleCount` counts the invocations of `schedule_work` on
`lrng_jent_async_work`; `forceFullySeeded` records whether
`lrng_force_fully_seeded` has been signalled. -/
structure JentState where
  lrng_jent_initialized : Bool
  jent_entropy : Nat
  lrng_es_jent_async_enabled : Bool
  lrng_jent_async : List JentEntropyEs
  lrng_jent_async_set : List LrngJentAsyncState
  idx : Nat
  fetchCount : Nat
  scheduleCount : Nat
  forceFullySeeded : Bool
deriving DecidableEq

/-- The jitter entry of `struct entropy_buf`: `eb->e[lrng_ext_es_jitter]` and
`eb->e_bits[lrng_ext_es_jitter]` (the only entries this file touches). -/
structure EntropyBuf where
  e : List Byte
  e_bits : Nat
deriving DecidableEq

/-- Writing `n` fetched bytes into a destination buffer: the first `n` bytes
are replaced by the source, the remaining bytes keep their old contents
(`crypto_rng_get_bytes` and `memcpy` write exactly their byte count). -/
def writeBytes (dst src : List Byte) (n : Nat) : List Byte :=
  src.take n ++ dst.drop n

/-- A slot after `memzero_explicit`: all-zero buffer, zero credited bits. -/
def zeroSlot (cfg : JentConfig) : JentEntropyEs :=
  ⟨List.replicate cfg.seedBytes 0, 0⟩

/-- Modelled from the spec: `lrng_fast_noise_entropylevel` lives in
`lrng_es_mgr.h`, which is not under `src/`.  Spec §4.4: the estimate is a
function of the configured rate scaled to `requested_bits` relative to a
reference width (the security-strength reference size), capped at
`requested_bits`, and zero when the rate is zero. -/
def lrng_fast_noise_entropylevel (secStrengthBits ent requested_bits : Nat) : Nat :=
  min (ent * requested_bits / secStrengthBits) requested_bits

/-- `lrng_jent_entropylevel`: the credited-bits estimate, using rate 0 while
the subsystem is uninitialized. -/
def lrng_jent_entropylevel (cfg : JentConfig) (s : JentState)
    (requested_bits : Nat) : Nat :=
  lrng_fast_noise_entropylevel cfg.secStrengthBits
    (if s.lrng_jent_initialized then s.jent_entropy else 0) requested_bits

/-- `lrng_jent_poolsize`: the estimate at the security-strength width
(`lrng_security_strength()` returns `LRNG_DRNG_SECURITY_STRENGTH_BITS`). -/
def lrng_jent_poolsize (cfg : JentConfig) (s : JentState) : Nat :=
  lrng_jent_entropylevel cfg s cfg.secStrengthBits

/-- `__lrng_jent_get(e, e_bits, requested_bits)`: the direct synchronous
fetch.  Returns the new contents of the caller's buffer `e`, the value
written to `*e_bits`, and the state with the fetch counter advanced.  If the
subsystem is uninitialized the error branch writes `*e_bits = 0` without
calling the noise source; if `crypto_rng_get_bytes` (fetching
`requested_bits >> 3` bytes under the spinlock) fails, the error branch
writes `*e_bits = 0`; on success the credited estimate is written. -/
def lrng_jent_get_core (cfg : JentConfig) (oracle : NoiseOracle) (s : JentState)
    (e : List Byte) (requested_bits : Nat) : List Byte × Nat × JentState :=
  let ent_bits := lrng_jent_entropylevel cfg s requested_bits
  if s.lrng_jent_initialized = false then
    (e, 0, s)
  else
    match oracle s.fetchCount with
    | none => (e, 0, { s with fetchCount := s.fetchCount + 1 })
    | some bytes =>
        (writeBytes e bytes (requested_bits / 8), ent_bits,
         { s with fetchCount := s.fetchCount + 1 })

/-- `lrng_jent_get(eb, requested_bits, _)`: the direct path, writing into the
jitter entry of the caller's entropy buffer. -/
def lrng_jent_get (cfg : JentConfig) (oracle : NoiseOracle) (s : JentState)
    (eb : EntropyBuf) (requested_bits : Nat) : EntropyBuf × JentState :=
  let r := lrng_jent_get_core cfg oracle s eb.e requested_bits
  (⟨r.1, r.2.1⟩, r.2.2)

/-- One iteration (slot index `i`) of the fill loop in
`lrng_jent_async_monitor`: attempt the `buffer_empty → buffer_filling` CAS;
on success fetch `lrng_get_seed_entropy_osr(true)` bits into the slot with
`__lrng_jent_get` and then set the slot state to `buffer_filled`
(unconditionally — also when the fetch failed and `e_bits` is 0). -/
def monitorStep (cfg : JentConfig) (oracle : NoiseOracle) (s : JentState)
    (i : Nat) : JentState :=
  if s.lrng_jent_async_set.getD i buffer_empty = buffer_empty then
    let slot := s.lrng_jent_async.getD i ⟨[], 0⟩
    let r := lrng_jent_get_core cfg oracle
      { s with lrng_jent_async_set := s.lrng_jent_async_set.set i buffer_filling }
      slot.e cfg.stdBits
    { r.2.2 with
      lrng_jent_async := r.2.2.lrng_jent_async.set i ⟨r.1, r.2.1⟩,
      lrng_jent_async_set := r.2.2.lrng_jent_async_set.set i buffer_filled }
  else s

/-- The fill loop of `lrng_jent_async_monitor`, from slot index `i` with
`fuel` iterations remaining (the `schedule()` yield between slots has no
effect in the sequential embedding). -/
def monitorLoop (cfg : JentConfig) (oracle : NoiseOracle) :
    Nat → Nat → JentState → JentState
  | _, 0, s => s
  | i, fuel + 1, s => monitorLoop cfg oracle (i + 1) fuel (monitorStep cfg oracle s i)

/-- `lrng_jent_async_monitor`: the work handler; scans all
`CONFIG_LRNG_JENT_ENTROPY_BLOCKS` slots in index order and fills every slot
it can claim. -/
def lrng_jent_async_monitor (cfg : JentConfig) (oracle : NoiseOracle)
    (s : JentState) : JentState :=
  monitorLoop cfg oracle 0 cfg.blocks s

/-- `lrng_jent_async_monitor_schedule`: request a fill pass — calls
`schedule_work(&lrng_jent_async_work)` only while async collection is
enabled. -/
def lrng_jent_async_monitor_schedule (s : JentState) : JentState :=
  if s.lrng_es_jent_async_enabled then
    { s with scheduleCount := s.scheduleCount + 1 }
  else s

/-- `lrng_jent_async_fini`: `memzero_explicit(lrng_jent_async,
sizeof(lrng_jent_async))` — every slot's buffer and credited bits become
zero.  The state array `lrng_jent_async_set` is not touched. -/
def lrng_jent_async_fini (cfg : JentConfig) (s : JentState) : JentState :=
  { s with lrng_jent_async := List.replicate cfg.blocks (zeroSlot cfg) }

/-- `lrng_jent_async_get(eb, requested_bits, _)`: the pool path.  Advance the
shared cursor once, mask it to a slot index, attempt the
`buffer_filled → buffer_reading` CAS; on failure fall back to the direct path
and request a refill pass; on success copy the slot out, wipe it, mark it
`buffer_empty`, and apply the quarter-pool refill heuristic. -/
def lrng_jent_async_get (cfg : JentConfig) (oracle : NoiseOracle) (s : JentState)
    (eb : EntropyBuf) (requested_bits : Nat) : EntropyBuf × JentState :=
  if s.lrng_jent_initialized = false then
    ({ eb with e_bits := 0 }, s)
  else
    let idx' := (s.idx + 1) % 2 ^ 32
    let slot := idx' &&& LRNG_JENT_ENTROPY_BLOCKS_MASK cfg
    let s1 := { s with idx := idx' }
    if s1.lrng_jent_async_set.getD slot buffer_empty ≠ buffer_filled then
      let r := lrng_jent_get cfg oracle s1 eb requested_bits
      (r.1, lrng_jent_async_monitor_schedule r.2)
    else
      let s2 := { s1 with
        lrng_jent_async_set := s1.lrng_jent_async_set.set slot buffer_reading }
      let sl := s2.lrng_jent_async.getD slot ⟨[], 0⟩
      let eb' : EntropyBuf := ⟨writeBytes eb.e sl.e cfg.seedBytes, sl.e_bits⟩
      let s3 := { s2 with
        lrng_jent_async := s2.lrng_jent_async.set slot (zeroSlot cfg),
        lrng_jent_async_set := s2.lrng_jent_async_set.set slot buffer_empty }
      if slot % (cfg.blocks / 4) = 0 ∧ slot ≠ 0 then
        (eb', lrng_jent_async_monitor_schedule s3)
      else
        (eb', s3)

/-- `lrng_jent_get_check`: the consumer entry point — pool path iff async
collection is enabled and the request is the standard oversampled size. -/
def lrng_jent_get_check (cfg : JentConfig) (oracle : NoiseOracle) (s : JentState)
    (eb : EntropyBuf) (requested_bits : Nat) : EntropyBuf × JentState :=
  if s.lrng_es_jent_async_enabled = true ∧ requested_bits = cfg.stdBits then
    lrng_jent_async_get cfg oracle s eb requested_bits
  else
    lrng_jent_get cfg oracle s eb requested_bits

/-- `lrng_jent_async_init`: while async collection is enabled, set every
slot's state to `buffer_empty`. -/
def lrng_jent_async_init (cfg : JentConfig) (s : JentState) : JentState :=
  if s.lrng_es_jent_async_enabled = false then s
  else { s with lrng_jent_async_set := List.replicate cfg.blocks buffer_empty }

/-- `lrng_jent_async_init_complete`: `lrng_jent_async_init` plus `INIT_WORK`
(no observable effect in the embedding). -/
def lrng_jent_async_init_complete (cfg : JentConfig) (s : JentState) : JentState :=
  lrng_jent_async_init cfg s

/-- `lrng_jent_async_sysfs_set` after `kstrtobool` (kernel library code
outside this file) has parsed the written value into `setting`: on a real
disabled→enabled transition re-enable, re-init the slot states and schedule a
fill pass; on a real enabled→disabled transition disable and wipe the slot
buffers; otherwise do nothing. -/
def lrng_jent_async_sysfs_set (cfg : JentConfig) (s : JentState)
    (setting : Bool) : JentState :=
  if setting then
    if s.lrng_es_jent_async_enabled = false then
      lrng_jent_async_monitor_schedule
        (lrng_jent_async_init cfg { s with lrng_es_jent_async_enabled := true })
    else s
  else
    if s.lrng_es_jent_async_enabled then
      lrng_jent_async_fini cfg { s with lrng_es_jent_async_enabled := false }
    else s

/-- `lrng_jent_initialize` (the `device_initcall`; the Lean name differs from
the C name only to satisfy the identifier conventions of this development):
`allocOk` models whether `crypto_alloc_rng("jitterentropy_rng")` succeeded —
on failure the whole init fails (`none`) with the state untouched.  `fips`
is the kernel's `fips_enabled` flag.  On success: complete the async init,
mark the subsystem initialized, apply the FIPS entropy-rate override
(`jent_entropy` is forced to `LRNG_DRNG_SECURITY_STRENGTH_BITS` iff FIPS mode
is on, the compiled-in default rate is nonzero and the runtime rate still
equals that default), and signal `lrng_force_fully_seeded` iff the resulting
rate is nonzero. -/
def lrng_jent_module_init (cfg : JentConfig) (fips : Bool) (allocOk : Bool)
    (s : JentState) : Option JentState :=
  if allocOk = false then none
  else
    let s1 := lrng_jent_async_init_complete cfg s
    let s2 := { s1 with lrng_jent_initialized := true }
    let s3 :=
      if fips = true ∧ 0 < cfg.configRate ∧ s2.jent_entropy = cfg.configRate then
        { s2 with jent_entropy := cfg.secStrengthBits }
      else s2
    some (if s3.jent_entropy ≠ 0 then { s3 with forceFullySeeded := true } else s3)


/-! ### Helper lemmas -/

theorem getD_set_self {α : Type} {l : List α} {i : Nat} {a d : α}
    (h : i < l.length) : (l.set i a).getD i d = a := by
  simp [List.getD_eq_getElem?_getD, List.getElem?_set_self', h]

theorem getD_set_other {α : Type} {l : List α} {i j : Nat} {a d : α}
    (h : i ≠ j) : (l.set i a).getD j d = l.getD j d := by
  simp [List.getD_eq_getElem?_getD, List.getElem?_set_ne h]

theorem mod_pow_add32 (a b k : Nat) (hk : k ≤ 32) :
    ((a % 2 ^ 32) + b) % 2 ^ k = (a + b) % 2 ^ k :=
  Nat.ModEq.add_right b (Nat.mod_mod_of_dvd a (pow_dvd_pow 2 hk))

theorem add_mod_inj (x j j' B : Nat) (hj : j < B) (hj' : j' < B)
    (h : (x + j) % B = (x + j') % B) : j = j' := by
  have hmod : j % B = j' % B := Nat.ModEq.add_left_cancel' x h
  rw [Nat.mod_eq_of_lt hj, Nat.mod_eq_of_lt hj'] at hmod
  exact hmod

/-- The direct path changes nothing in the module state but the fetch
counter. -/
theorem lrng_jent_get_core_state (cfg : JentConfig) (oracle : NoiseOracle)
    (s : JentState) (e : List Byte) (rb : Nat) :
    (lrng_jent_get_core cfg oracle s e rb).2.2 =
      { s with fetchCount := (lrng_jent_get_core cfg oracle s e rb).2.2.fetchCount } := by
  unfold lrng_jent_get_core
  split
  · rfl
  · cases h : oracle s.fetchCount <;> simp [h]

/-- The direct path on an entropy buffer: same frame property. -/
theorem lrng_jent_get_state (cfg : JentConfig) (oracle : NoiseOracle)
    (s : JentState) (eb : EntropyBuf) (rb : Nat) :
    (lrng_jent_get cfg oracle s eb rb).2 =
      { s with fetchCount := (lrng_jent_get cfg oracle s eb rb).2.fetchCount } :=
  lrng_jent_get_core_state cfg oracle s eb.e rb

theorem lrng_jent_async_init_jent_entropy (cfg : JentConfig) (s : JentState) :
    (lrng_jent_async_init cfg s).jent_entropy = s.jent_entropy := by
  unfold lrng_jent_async_init
  split <;> rfl

/-! ### Concrete fixtures for witnesses and counterexamples -/

/-- A concrete configuration: 4 slots, 4-byte seed buffers, 256-bit security
strength, compiled-in rate 16, standard oversampled request of 32 bits. -/
def cfg4 : JentConfig := ⟨4, 4, 256, 16, 32⟩

/-- A NoiseSource whose every fetch fails. -/
def oracleFail : NoiseOracle := fun _ => none

/-- A NoiseSource whose fetch number `n` returns bytes `n + 1`. -/
def oracleOk : NoiseOracle := fun n => some (List.replicate 8 (n + 1))

/-- Initialized state, async enabled, all four slots Empty and wiped. -/
def sEmpty : JentState :=
  ⟨true, 16, true, List.replicate 4 (zeroSlot cfg4),
   List.replicate 4 buffer_empty, 2 ^ 32 - 1, 0, 0, false⟩

/-- Initialized state, async enabled, all four slots Filled with distinct
contents. -/
def sFull : JentState :=
  ⟨true, 16, true,
   [⟨[1, 1, 1, 1], 16⟩, ⟨[2, 2, 2, 2], 16⟩, ⟨[3, 3, 3, 3], 16⟩, ⟨[4, 4, 4, 4], 16⟩],
   List.replicate 4 buffer_filled, 2 ^ 32 - 1, 0, 0, false⟩

/-- An uninitialized state (NoiseSource allocation never succeeded). -/
def sUninit : JentState :=
  ⟨false, 16, true, List.replicate 4 (zeroSlot cfg4),
   List.replicate 4 buffer_empty, 2 ^ 32 - 1, 0, 0, false⟩

/-! ### Claims -/

/-- Claim C10: the runtime async-collection toggle is idempotent — writing
the value it already holds is a no-op: no slot re-initialization, no
scheduled fill pass, no wipe; the state is unchanged. -/
theorem C10_toggle_idempotent (cfg : JentConfig) (s : JentState) (b : Bool)
    (h : s.lrng_es_jent_async_enabled = b) :
    lrng_jent_async_sysfs_set cfg s b = s := by
  cases b <;> simp [lrng_jent_async_sysfs_set, h]

/-- Claim C10 witness: enabling while already enabled changes nothing. -/
theorem C10_toggle_idempotent_witness :
    lrng_jent_async_sysfs_set cfg4 sFull true = sFull :=
  C10_toggle_idempotent cfg4 sFull true rfl

/-- Claim C5: while the subsystem is uninitialized, every get-entropy call —
pool path or direct path — credits 0 bits and never calls the NoiseSource
(the fetch counter is unchanged). -/
theorem C5_uninitialized_returns_zero (cfg : JentConfig) (oracle : NoiseOracle)
    (s : JentState) (eb : EntropyBuf) (rb : Nat)
    (h : s.lrng_jent_initialized = false) :
    (lrng_jent_get_check cfg oracle s eb rb).1.e_bits = 0 ∧
    (lrng_jent_get_check cfg oracle s eb rb).2.fetchCount = s.fetchCount := by
  unfold lrng_jent_get_check lrng_jent_async_get lrng_jent_get lrng_jent_get_core
  split <;> simp [h]

/-- Claim C5 witness: an uninitialized pool-path call credits 0 bits and
makes no fetch. -/
theorem C5_uninitialized_returns_zero_witness :
    (lrng_jent_get_check cfg4 oracleOk sUninit ⟨[9, 9, 9, 9], 7⟩ 32).1.e_bits = 0 ∧
    (lrng_jent_get_check cfg4 oracleOk sUninit ⟨[9, 9, 9, 9], 7⟩ 32).2.fetchCount
      = sUninit.fetchCount :=
  C5_uninitialized_returns_zero cfg4 oracleOk sUninit ⟨[9, 9, 9, 9], 7⟩ 32 rfl

/-- Claim C9: when the direct-path fetch ends in the error branch (subsystem
uninitialized, or the NoiseSource fetch fails), only the credited-bits
output is written (to 0); the caller's entropy bytes are exactly as before
the call. -/
theorem C9_direct_error_frame (cfg : JentConfig) (oracle : NoiseOracle)
    (s : JentState) (eb : EntropyBuf) (rb : Nat)
    (h : s.lrng_jent_initialized = false ∨ oracle s.fetchCount = none) :
    (lrng_jent_get cfg oracle s eb rb).1.e = eb.e ∧
    (lrng_jent_get cfg oracle s eb rb).1.e_bits = 0 := by
  unfold lrng_jent_get lrng_jent_get_core
  rcases h with h | h
  · simp [h]
  · cases hinit : s.lrng_jent_initialized <;> simp [h, hinit]

/-- Claim C9 witness: a failing fetch leaves the caller's bytes [9,9,9,9]
untouched and credits 0 bits. -/
theorem C9_direct_error_frame_witness :
    (lrng_jent_get cfg4 oracleFail sFull ⟨[9, 9, 9, 9], 7⟩ 32).1.e = [9, 9, 9, 9] ∧
    (lrng_jent_get cfg4 oracleFail sFull ⟨[9, 9, 9, 9], 7⟩ 32).1.e_bits = 0 :=
  C9_direct_error_frame cfg4 oracleFail sFull ⟨[9, 9, 9, 9], 7⟩ 32 (Or.inr rfl)

/-- Claim C3: the pool path is taken iff async collection is enabled and the
request is exactly the standard oversampled size; in every other case the
direct path runs and the slot pool, slot states and consumer cursor are
untouched. -/
theorem C3_path_decision (cfg : JentConfig) (oracle : NoiseOracle)
    (s : JentState) (eb : EntropyBuf) (rb : Nat) :
    (s.lrng_es_jent_async_enabled = true ∧ rb = cfg.stdBits →
      lrng_jent_get_check cfg oracle s eb rb = lrng_jent_async_get cfg oracle s eb rb) ∧
    (¬(s.lrng_es_jent_async_enabled = true ∧ rb = cfg.stdBits) →
      lrng_jent_get_check cfg oracle s eb rb = lrng_jent_get cfg oracle s eb rb ∧
      (lrng_jent_get_check cfg oracle s eb rb).2.lrng_jent_async = s.lrng_jent_async ∧
      (lrng_jent_get_check cfg oracle s eb rb).2.lrng_jent_async_set = s.lrng_jent_async_set ∧
      (lrng_jent_get_check cfg oracle s eb rb).2.idx = s.idx) := by
  constructor
  · intro h
    unfold lrng_jent_get_check
    rw [if_pos h]
  · intro h
    have hd : lrng_jent_get_check cfg oracle s eb rb = lrng_jent_get cfg oracle s eb rb := by
      unfold lrng_jent_get_check
      rw [if_neg h]
    refine ⟨hd, ?_, ?_, ?_⟩ <;> rw [hd, lrng_jent_get_state]

/-- Claim C3 witness: a non-standard-size request with async enabled and the
pool full takes the direct path and leaves pool and cursor untouched. -/
theorem C3_path_decision_witness :
    lrng_jent_get_check cfg4 oracleOk sFull ⟨[9, 9, 9, 9], 7⟩ 64
      = lrng_jent_get cfg4 oracleOk sFull ⟨[9, 9, 9, 9], 7⟩ 64 ∧
    (lrng_jent_get_check cfg4 oracleOk sFull ⟨[9, 9, 9, 9], 7⟩ 64).2.lrng_jent_async
      = sFull.lrng_jent_async ∧
    (lrng_jent_get_check cfg4 oracleOk sFull ⟨[9, 9, 9, 9], 7⟩ 64).2.lrng_jent_async_set
      = sFull.lrng_jent_async_set ∧
    (lrng_jent_get_check cfg4 oracleOk sFull ⟨[9, 9, 9, 9], 7⟩ 64).2.idx = sFull.idx :=
  (C3_path_decision cfg4 oracleOk sFull ⟨[9, 9, 9, 9], 7⟩ 64).2 (by decide)

/-- Claim C6: at initialization (with the NoiseSource successfully
allocated), the rate is forced to the full security-strength bit count iff
FIPS mode is on, the compiled-in default rate is nonzero and the runtime
rate still equals that default; under any other combination it is left
unchanged. -/
theorem C6_fips_rate_override (cfg : JentConfig) (fips : Bool)
    (s s' : JentState)
    (h : lrng_jent_module_init cfg fips true s = some s') :
    (fips = true ∧ 0 < cfg.configRate ∧ s.jent_entropy = cfg.configRate →
      s'.jent_entropy = cfg.secStrengthBits) ∧
    (¬(fips = true ∧ 0 < cfg.configRate ∧ s.jent_entropy = cfg.configRate) →
      s'.jent_entropy = s.jent_entropy) := by
  unfold lrng_jent_module_init lrng_jent_async_init_complete at h
  rw [if_neg (by simp)] at h
  simp only [lrng_jent_async_init_jent_entropy] at h
  constructor
  · intro hc
    rw [if_pos hc] at h
    split at h <;> (injection h with h; subst h; rfl)
  · intro hc
    rw [if_neg hc] at h
    split at h <;>
      (injection h with h; subst h; simp [lrng_jent_async_init_jent_entropy])

/-- Claim C6 witness: FIPS on, default rate 16, runtime rate still 16 — the
rate is forced to 256. -/
theorem C6_fips_rate_override_witness :
    (lrng_jent_module_init cfg4 true true sEmpty
        = some ((lrng_jent_module_init cfg4 true true sEmpty).getD sEmpty) →
      ((lrng_jent_module_init cfg4 true true sEmpty).getD sEmpty).jent_entropy
        = cfg4.secStrengthBits) ∧
    ((lrng_jent_module_init cfg4 true true sEmpty).getD sEmpty).jent_entropy = 256 := by
  refine ⟨fun h => (C6_fips_rate_override cfg4 true sEmpty _ h).1 (by decide), ?_⟩
  have h : lrng_jent_module_init cfg4 true true sEmpty
      = some ((lrng_jent_module_init cfg4 true true sEmpty).getD sEmpty) := by decide
  exact (C6_fips_rate_override cfg4 true sEmpty _ h).1 (by decide)
/-- Claim C2 counterexample: invoking the async-collection disable while
async is enabled and every slot is Filled leaves slot 0's state tag
`buffer_filled`, not `buffer_empty` — `lrng_jent_async_fini` wipes only the
buffer array `lrng_jent_async`, never the state array
`lrng_jent_async_set`. -/
theorem C2_counterexample :
    (lrng_jent_async_sysfs_set cfg4 sFull false).lrng_jent_async_set.getD 0 buffer_empty
        = buffer_filled ∧
    ¬((lrng_jent_async_sysfs_set cfg4 sFull false).lrng_jent_async_set.getD 0 buffer_empty
        = buffer_empty) := by
  decide

/-- Claim C2 (amended): after the disable operation returns (invoked while
async was enabled), every slot's buffer is all-zero with zero credited bits,
async collection is off and no fill pass was scheduled — but each slot's
state tag is left exactly as it was, not reset to Empty (the state tags are
re-initialized to `buffer_empty` only on the next enable). -/
theorem C2_disable_wipes_buffers (cfg : JentConfig) (s : JentState)
    (h : s.lrng_es_jent_async_enabled = true) :
    (lrng_jent_async_sysfs_set cfg s false).lrng_jent_async
        = List.replicate cfg.blocks (zeroSlot cfg) ∧
    (lrng_jent_async_sysfs_set cfg s false).lrng_jent_async_set
        = s.lrng_jent_async_set ∧
    (lrng_jent_async_sysfs_set cfg s false).lrng_es_jent_async_enabled = false ∧
    (lrng_jent_async_sysfs_set cfg s false).scheduleCount = s.scheduleCount := by
  simp [lrng_jent_async_sysfs_set, lrng_jent_async_fini, h]

/-- Claim C2 witness: disabling with all four slots Filled wipes the buffers,
turns async off and leaves the state tags as they were. -/
theorem C2_disable_wipes_buffers_witness :
    (lrng_jent_async_sysfs_set cfg4 sFull false).lrng_jent_async
        = List.replicate cfg4.blocks (zeroSlot cfg4) ∧
    (lrng_jent_async_sysfs_set cfg4 sFull false).lrng_jent_async_set
        = sFull.lrng_jent_async_set ∧
    (lrng_jent_async_sysfs_set cfg4 sFull false).lrng_es_jent_async_enabled = false ∧
    (lrng_jent_async_sysfs_set cfg4 sFull false).scheduleCount = sFull.scheduleCount :=
  C2_disable_wipes_buffers cfg4 sFull rfl

/-- `monitorStep` at slot index `i` leaves every other slot's state tag and
contents unchanged. -/
theorem monitorStep_preserves (cfg : JentConfig) (oracle : NoiseOracle)
    (s : JentState) (i j : Nat) (hij : i ≠ j) :
    (monitorStep cfg oracle s i).lrng_jent_async_set.getD j buffer_empty
        = s.lrng_jent_async_set.getD j buffer_empty ∧
    (monitorStep cfg oracle s i).lrng_jent_async.getD j ⟨[], 0⟩
        = s.lrng_jent_async.getD j ⟨[], 0⟩ := by
  unfold monitorStep lrng_jent_get_core
  split
  · cases h : oracle s.fetchCount <;> cases hi : s.lrng_jent_initialized <;>
      simp [h, hi, List.getElem?_set_ne hij]
  · exact ⟨rfl, rfl⟩

/-- `monitorStep` keeps the initialized flag and the array lengths. -/
theorem monitorStep_fields (cfg : JentConfig) (oracle : NoiseOracle)
    (s : JentState) (i : Nat) :
    (monitorStep cfg oracle s i).lrng_jent_initialized = s.lrng_jent_initialized ∧
    (monitorStep cfg oracle s i).lrng_jent_async.length = s.lrng_jent_async.length ∧
    (monitorStep cfg oracle s i).lrng_jent_async_set.length
        = s.lrng_jent_async_set.length := by
  unfold monitorStep lrng_jent_get_core
  split
  · cases h : oracle s.fetchCount <;> cases hi : s.lrng_jent_initialized <;>
      simp [h, hi]
  · exact ⟨rfl, rfl, rfl⟩

/-- The fill loop starting at index `i0` never touches a slot `j < i0`. -/
theorem monitorLoop_preserves (cfg : JentConfig) (oracle : NoiseOracle) :
    ∀ (fuel i0 : Nat) (s : JentState) (j : Nat), j < i0 →
    (monitorLoop cfg oracle i0 fuel s).lrng_jent_async_set.getD j buffer_empty
        = s.lrng_jent_async_set.getD j buffer_empty ∧
    (monitorLoop cfg oracle i0 fuel s).lrng_jent_async.getD j ⟨[], 0⟩
        = s.lrng_jent_async.getD j ⟨[], 0⟩ := by
  intro fuel
  induction fuel with
  | zero => exact fun i0 s j _ => ⟨rfl, rfl⟩
  | succ fuel ih =>
    intro i0 s j hj
    have hstep := monitorStep_preserves cfg oracle s i0 j (Nat.ne_of_gt hj)
    have hrec := ih (i0 + 1) (monitorStep cfg oracle s i0) j (Nat.lt_succ_of_lt hj)
    simp only [monitorLoop]
    exact ⟨hrec.1.trans hstep.1, hrec.2.trans hstep.2⟩

/-- The fill step on a claimed (Empty) slot when the fetch fails: the slot is
marked `buffer_filled` with credited bits 0 and its buffer unchanged. -/
theorem monitorStep_fill_fail (cfg : JentConfig) (oracle : NoiseOracle)
    (s : JentState) (i : Nat)
    (hfail : ∀ n, oracle n = none)
    (hinit : s.lrng_jent_initialized = true)
    (hempty : s.lrng_jent_async_set.getD i buffer_empty = buffer_empty) :
    monitorStep cfg oracle s i =
      { s with
        lrng_jent_async := s.lrng_jent_async.set i
          ⟨(s.lrng_jent_async.getD i ⟨[], 0⟩).e, 0⟩,
        lrng_jent_async_set := s.lrng_jent_async_set.set i buffer_filled,
        fetchCount := s.fetchCount + 1 } := by
  unfold monitorStep lrng_jent_get_core
  rw [if_pos hempty]
  simp [hinit, hfail, List.set_set]

/-- The fill loop over `[i0, i0 + fuel)` with every fetch failing marks each
claimed slot in range `buffer_filled` with 0 credited bits and an unchanged
buffer. -/
theorem monitorLoop_fills (cfg : JentConfig) (oracle : NoiseOracle)
    (hfail : ∀ n, oracle n = none) :
    ∀ (fuel i0 : Nat) (s : JentState) (j : Nat),
    i0 ≤ j → j < i0 + fuel →
    s.lrng_jent_initialized = true →
    j < s.lrng_jent_async.length →
    j < s.lrng_jent_async_set.length →
    s.lrng_jent_async_set.getD j buffer_empty = buffer_empty →
    (monitorLoop cfg oracle i0 fuel s).lrng_jent_async_set.getD j buffer_empty
        = buffer_filled ∧
    ((monitorLoop cfg oracle i0 fuel s).lrng_jent_async.getD j ⟨[], 0⟩).e_bits = 0 ∧
    ((monitorLoop cfg oracle i0 fuel s).lrng_jent_async.getD j ⟨[], 0⟩).e
        = (s.lrng_jent_async.getD j ⟨[], 0⟩).e := by
  intro fuel
  induction fuel with
  | zero => intro i0 s j h1 h2; omega
  | succ fuel ih =>
    intro i0 s j h1 h2 hinit hl1 hl2 hempty
    simp only [monitorLoop]
    rcases Nat.eq_or_lt_of_le h1 with heq | hlt
    · subst heq
      rw [monitorStep_fill_fail cfg oracle s i0 hfail hinit hempty]
      have hpres := monitorLoop_preserves cfg oracle fuel (i0 + 1)
        { s with
          lrng_jent_async := s.lrng_jent_async.set i0
            ⟨(s.lrng_jent_async.getD i0 ⟨[], 0⟩).e, 0⟩,
          lrng_jent_async_set := s.lrng_jent_async_set.set i0 buffer_filled,
          fetchCount := s.fetchCount + 1 } i0 (Nat.lt_succ_self i0)
      refine ⟨?_, ?_, ?_⟩
      · rw [hpres.1]
        exact getD_set_self hl2
      · rw [hpres.2]
        rw [getD_set_self hl1]
      · rw [hpres.2]
        rw [getD_set_self hl1]
    · have hfields := monitorStep_fields cfg oracle s i0
      have hpres := monitorStep_preserves cfg oracle s i0 j (Nat.ne_of_lt hlt)
      have hrec := ih (i0 + 1) (monitorStep cfg oracle s i0) j hlt (by omega)
        (hfields.1.trans hinit) (hfields.2.1 ▸ hl1) (hfields.2.2 ▸ hl2)
        (hpres.1.trans hempty)
      exact ⟨hrec.1, hrec.2.1, hrec.2.2.trans (congrArg JentEntropyEs.e hpres.2)⟩

/-- Claim C1 counterexample: all slots Empty, every NoiseSource fetch fails;
after one async fill pass slot 0 is `buffer_filled` with 0 credited bits —
it has not reverted to `buffer_empty`. -/
theorem C1_counterexample :
    (lrng_jent_async_monitor cfg4 oracleFail sEmpty).lrng_jent_async_set.getD 0 buffer_empty
        = buffer_filled ∧
    ((lrng_jent_async_monitor cfg4 oracleFail sEmpty).lrng_jent_async.getD 0 ⟨[], 0⟩).e_bits
        = 0 ∧
    ¬((lrng_jent_async_monitor cfg4 oracleFail sEmpty).lrng_jent_async_set.getD 0 buffer_empty
        = buffer_empty) := by
  decide

/-- Claim C1 (amended): when the NoiseSource fetch for a claimed slot fails
during an async fill pass, the slot transitions to `buffer_filled` with zero
credited bits and an unchanged buffer — a later consumer observes zero
credited entropy; the slot is not reverted to `buffer_empty` for retry. -/
theorem C1_fill_failure_marks_filled (cfg : JentConfig) (oracle : NoiseOracle)
    (s : JentState) (j : Nat)
    (hfail : ∀ n, oracle n = none)
    (hinit : s.lrng_jent_initialized = true)
    (hl1 : j < s.lrng_jent_async.length)
    (hl2 : j < s.lrng_jent_async_set.length)
    (hj : j < cfg.blocks)
    (hempty : s.lrng_jent_async_set.getD j buffer_empty = buffer_empty) :
    (lrng_jent_async_monitor cfg oracle s).lrng_jent_async_set.getD j buffer_empty
        = buffer_filled ∧
    ((lrng_jent_async_monitor cfg oracle s).lrng_jent_async.getD j ⟨[], 0⟩).e_bits = 0 ∧
    ((lrng_jent_async_monitor cfg oracle s).lrng_jent_async.getD j ⟨[], 0⟩).e
        = (s.lrng_jent_async.getD j ⟨[], 0⟩).e :=
  monitorLoop_fills cfg oracle hfail cfg.blocks 0 s j (Nat.zero_le j) (by omega)
    hinit hl1 hl2 hempty

/-- Claim C1 witness: slot 0 of the all-Empty pool, with every fetch failing,
ends `buffer_filled` with 0 bits and its (all-zero) buffer unchanged. -/
theorem C1_fill_failure_marks_filled_witness :
    (lrng_jent_async_monitor cfg4 oracleFail sEmpty).lrng_jent_async_set.getD 0 buffer_empty
        = buffer_filled ∧
    ((lrng_jent_async_monitor cfg4 oracleFail sEmpty).lrng_jent_async.getD 0 ⟨[], 0⟩).e_bits
        = 0 ∧
    ((lrng_jent_async_monitor cfg4 oracleFail sEmpty).lrng_jent_async.getD 0 ⟨[], 0⟩).e
        = (sEmpty.lrng_jent_async.getD 0 ⟨[], 0⟩).e :=
  C1_fill_failure_marks_filled cfg4 oracleFail sEmpty 0 (fun _ => rfl) rfl
    (by decide) (by decide) (by decide) (by decide)
/-- Projections of the direct-path frame property. -/
theorem lrng_jent_get_sched (cfg : JentConfig) (oracle : NoiseOracle)
    (s : JentState) (eb : EntropyBuf) (rb : Nat) :
    (lrng_jent_get cfg oracle s eb rb).2.scheduleCount = s.scheduleCount := by
  rw [lrng_jent_get_state]

theorem lrng_jent_get_enabled (cfg : JentConfig) (oracle : NoiseOracle)
    (s : JentState) (eb : EntropyBuf) (rb : Nat) :
    (lrng_jent_get cfg oracle s eb rb).2.lrng_es_jent_async_enabled
      = s.lrng_es_jent_async_enabled := by
  rw [lrng_jent_get_state]

theorem lrng_jent_get_pool (cfg : JentConfig) (oracle : NoiseOracle)
    (s : JentState) (eb : EntropyBuf) (rb : Nat) :
    (lrng_jent_get cfg oracle s eb rb).2.lrng_jent_async = s.lrng_jent_async := by
  rw [lrng_jent_get_state]

theorem lrng_jent_get_states (cfg : JentConfig) (oracle : NoiseOracle)
    (s : JentState) (eb : EntropyBuf) (rb : Nat) :
    (lrng_jent_get cfg oracle s eb rb).2.lrng_jent_async_set
      = s.lrng_jent_async_set := by
  rw [lrng_jent_get_state]

/-- A successful pool-path drain: with the subsystem initialized and the
candidate slot `c` (the masked advanced cursor) `Filled`,
`lrng_jent_async_get` returns the slot's contents into the caller's buffer,
wipes the slot, marks it `buffer_empty`, and schedules a refill pass exactly
when the quarter-pool heuristic fires. -/
theorem lrng_jent_async_get_drain (cfg : JentConfig) (oracle : NoiseOracle)
    (s : JentState) (eb : EntropyBuf) (rb : Nat) (c : Nat)
    (hc : c = ((s.idx + 1) % 2 ^ 32) &&& LRNG_JENT_ENTROPY_BLOCKS_MASK cfg)
    (hinit : s.lrng_jent_initialized = true)
    (hfilled : s.lrng_jent_async_set.getD c buffer_empty = buffer_filled) :
    lrng_jent_async_get cfg oracle s eb rb =
      (⟨writeBytes eb.e (s.lrng_jent_async.getD c ⟨[], 0⟩).e cfg.seedBytes,
        (s.lrng_jent_async.getD c ⟨[], 0⟩).e_bits⟩,
       if c % (cfg.blocks / 4) = 0 ∧ c ≠ 0 then
         lrng_jent_async_monitor_schedule
           { s with idx := (s.idx + 1) % 2 ^ 32,
                    lrng_jent_async := s.lrng_jent_async.set c (zeroSlot cfg),
                    lrng_jent_async_set := s.lrng_jent_async_set.set c buffer_empty }
       else
         { s with idx := (s.idx + 1) % 2 ^ 32,
                  lrng_jent_async := s.lrng_jent_async.set c (zeroSlot cfg),
                  lrng_jent_async_set := s.lrng_jent_async_set.set c buffer_empty }) := by
  subst hc
  unfold lrng_jent_async_get
  rw [if_neg (by simp [hinit])]
  simp only [List.getD_eq_getElem?_getD, Nat.reducePow] at hfilled
  simp [hfilled, List.set_set]
  split <;> rfl

/-- Claim C7: a pool-path call whose candidate slot is not `Filled` returns
exactly what the direct synchronous path yields for this request, requests
one async refill pass, and leaves the pool and slot states untouched — the
exhaustion race is never surfaced as an error. -/
theorem C7_exhausted_falls_back (cfg : JentConfig) (oracle : NoiseOracle)
    (s : JentState) (eb : EntropyBuf)
    (hinit : s.lrng_jent_initialized = true)
    (hen : s.lrng_es_jent_async_enabled = true)
    (hnot : s.lrng_jent_async_set.getD
        (((s.idx + 1) % 2 ^ 32) &&& LRNG_JENT_ENTROPY_BLOCKS_MASK cfg) buffer_empty
        ≠ buffer_filled) :
    lrng_jent_get_check cfg oracle s eb cfg.stdBits =
      ((lrng_jent_get cfg oracle { s with idx := (s.idx + 1) % 2 ^ 32 } eb cfg.stdBits).1,
       lrng_jent_async_monitor_schedule
         (lrng_jent_get cfg oracle { s with idx := (s.idx + 1) % 2 ^ 32 } eb cfg.stdBits).2) ∧
    (lrng_jent_get_check cfg oracle s eb cfg.stdBits).2.scheduleCount
        = s.scheduleCount + 1 ∧
    (lrng_jent_get_check cfg oracle s eb cfg.stdBits).2.lrng_jent_async
        = s.lrng_jent_async ∧
    (lrng_jent_get_check cfg oracle s eb cfg.stdBits).2.lrng_jent_async_set
        = s.lrng_jent_async_set := by
  have hmain : lrng_jent_get_check cfg oracle s eb cfg.stdBits =
      ((lrng_jent_get cfg oracle { s with idx := (s.idx + 1) % 2 ^ 32 } eb cfg.stdBits).1,
       lrng_jent_async_monitor_schedule
         (lrng_jent_get cfg oracle { s with idx := (s.idx + 1) % 2 ^ 32 } eb cfg.stdBits).2) := by
    unfold lrng_jent_get_check
    rw [if_pos ⟨hen, rfl⟩]
    unfold lrng_jent_async_get
    rw [if_neg (by simp [hinit])]
    simp only [List.getD_eq_getElem?_getD, Nat.reducePow] at hnot
    simp [hnot]
  refine ⟨hmain, ?_, ?_, ?_⟩ <;> rw [hmain] <;>
    simp [lrng_jent_async_monitor_schedule, lrng_jent_get_sched,
      lrng_jent_get_enabled, lrng_jent_get_pool, lrng_jent_get_states, hen]

/-- Claim C7 witness: pool exhausted (all slots Empty), async enabled — the
standard-size call schedules one refill pass and leaves the pool arrays
unchanged. -/
theorem C7_exhausted_falls_back_witness :
    (lrng_jent_get_check cfg4 oracleFail sEmpty ⟨[9, 9, 9, 9], 7⟩ cfg4.stdBits).2.scheduleCount
        = sEmpty.scheduleCount + 1 ∧
    (lrng_jent_get_check cfg4 oracleFail sEmpty ⟨[9, 9, 9, 9], 7⟩ cfg4.stdBits).2.lrng_jent_async
        = sEmpty.lrng_jent_async :=
  ⟨(C7_exhausted_falls_back cfg4 oracleFail sEmpty ⟨[9, 9, 9, 9], 7⟩ rfl rfl
      (by decide)).2.1,
   (C7_exhausted_falls_back cfg4 oracleFail sEmpty ⟨[9, 9, 9, 9], 7⟩ rfl rfl
      (by decide)).2.2.1⟩

/-- Claim C8: after a successful pool-path drain of slot `c`, a refill pass
is scheduled iff `c` modulo `SIZE/4` is zero and `c` itself is nonzero. -/
theorem C8_quarter_pool_refill (cfg : JentConfig) (oracle : NoiseOracle)
    (s : JentState) (eb : EntropyBuf) (rb : Nat) (c : Nat)
    (hc : c = ((s.idx + 1) % 2 ^ 32) &&& LRNG_JENT_ENTROPY_BLOCKS_MASK cfg)
    (hinit : s.lrng_jent_initialized = true)
    (hen : s.lrng_es_jent_async_enabled = true)
    (hfilled : s.lrng_jent_async_set.getD c buffer_empty = buffer_filled) :
    ((lrng_jent_async_get cfg oracle s eb rb).2.scheduleCount = s.scheduleCount + 1
        ↔ (c % (cfg.blocks / 4) = 0 ∧ c ≠ 0)) ∧
    (¬(c % (cfg.blocks / 4) = 0 ∧ c ≠ 0) →
      (lrng_jent_async_get cfg oracle s eb rb).2.scheduleCount = s.scheduleCount) := by
  rw [lrng_jent_async_get_drain cfg oracle s eb rb c hc hinit hfilled]
  by_cases hcond : c % (cfg.blocks / 4) = 0 ∧ c ≠ 0
  · rw [if_pos hcond]
    simp [lrng_jent_async_monitor_schedule, hen, hcond]
  · rw [if_neg hcond]
    simp [hcond]

/-- Claim C8 witness: draining slot 0 (the quarter-pool heuristic skips the
very first slot) schedules no refill pass; draining slot 1 of the 4-slot
pool (1 mod 1 = 0 and 1 ≠ 0) schedules one. -/
theorem C8_quarter_pool_refill_witness :
    (lrng_jent_async_get cfg4 oracleOk sFull ⟨[9, 9, 9, 9], 7⟩ 32).2.scheduleCount
        = sFull.scheduleCount :=
  (C8_quarter_pool_refill cfg4 oracleOk sFull ⟨[9, 9, 9, 9], 7⟩ 32 0 (by decide)
      rfl rfl (by decide)).2 (by decide)
/-- `schedule_work` requests change only the schedule counter. -/
theorem schedule_fields (s : JentState) :
    (lrng_jent_async_monitor_schedule s).idx = s.idx ∧
    (lrng_jent_async_monitor_schedule s).lrng_jent_async = s.lrng_jent_async ∧
    (lrng_jent_async_monitor_schedule s).lrng_jent_async_set = s.lrng_jent_async_set ∧
    (lrng_jent_async_monitor_schedule s).lrng_jent_initialized = s.lrng_jent_initialized ∧
    (lrng_jent_async_monitor_schedule s).lrng_es_jent_async_enabled
        = s.lrng_es_jent_async_enabled := by
  unfold lrng_jent_async_monitor_schedule
  split <;> exact ⟨rfl, rfl, rfl, rfl, rfl⟩

/-- With a power-of-two pool size, masking the (u32) advanced cursor is the
same as reducing it modulo the pool size. -/
theorem mask_slot_eq_mod (cfg : JentConfig) (k x : Nat) (hk : k ≤ 32)
    (hb : cfg.blocks = 2 ^ k) :
    (x % 2 ^ 32) &&& LRNG_JENT_ENTROPY_BLOCKS_MASK cfg = x % cfg.blocks := by
  unfold LRNG_JENT_ENTROPY_BLOCKS_MASK
  rw [hb, Nat.and_pow_two_sub_one_eq_mod, Nat.mod_mod_of_dvd x (pow_dvd_pow 2 hk)]

/-- The slot index targeted by the `j`-th pool-path call of a drain sequence
that starts with the consumer cursor at `i0`. -/
def drainSlot (cfg : JentConfig) (i0 j : Nat) : Nat :=
  (i0 + 1 + j) % cfg.blocks

/-- A sequence of `n` consumer get-entropy calls (each with a fresh caller
buffer `eb0` and request size `rb`), returning the final state and the list
of returned jitter entries in call order. -/
def drainSeq (cfg : JentConfig) (oracle : NoiseOracle) (eb0 : EntropyBuf)
    (rb : Nat) : Nat → JentState → JentState × List EntropyBuf
  | 0, s => (s, [])
  | n + 1, s =>
    let r := lrng_jent_get_check cfg oracle s eb0 rb
    let rest := drainSeq cfg oracle eb0 rb n r.2
    (rest.1, r.1 :: rest.2)

/-- Field-level consequences of a successful pool-path drain. -/
theorem drain_step_fields (cfg : JentConfig) (oracle : NoiseOracle)
    (s : JentState) (eb : EntropyBuf) (rb c : Nat)
    (hc : c = ((s.idx + 1) % 2 ^ 32) &&& LRNG_JENT_ENTROPY_BLOCKS_MASK cfg)
    (hinit : s.lrng_jent_initialized = true)
    (hfilled : s.lrng_jent_async_set.getD c buffer_empty = buffer_filled) :
    (lrng_jent_async_get cfg oracle s eb rb).1 =
      ⟨writeBytes eb.e (s.lrng_jent_async.getD c ⟨[], 0⟩).e cfg.seedBytes,
        (s.lrng_jent_async.getD c ⟨[], 0⟩).e_bits⟩ ∧
    (lrng_jent_async_get cfg oracle s eb rb).2.idx = (s.idx + 1) % 2 ^ 32 ∧
    (lrng_jent_async_get cfg oracle s eb rb).2.lrng_jent_async
        = s.lrng_jent_async.set c (zeroSlot cfg) ∧
    (lrng_jent_async_get cfg oracle s eb rb).2.lrng_jent_async_set
        = s.lrng_jent_async_set.set c buffer_empty ∧
    (lrng_jent_async_get cfg oracle s eb rb).2.lrng_jent_initialized
        = s.lrng_jent_initialized ∧
    (lrng_jent_async_get cfg oracle s eb rb).2.lrng_es_jent_async_enabled
        = s.lrng_es_jent_async_enabled := by
  rw [lrng_jent_async_get_drain cfg oracle s eb rb c hc hinit hfilled]
  split
  · exact ⟨rfl, (schedule_fields _).1, (schedule_fields _).2.1,
      (schedule_fields _).2.2.1, (schedule_fields _).2.2.2.1,
      (schedule_fields _).2.2.2.2⟩
  · exact ⟨rfl, rfl, rfl, rfl, rfl, rfl⟩
/-- The round-robin drain invariant: starting from a state whose next `n`
candidate slots are all `Filled` (`n` at most the pool size), a sequence of
`n` standard-size pool-path calls returns, in call order, exactly the
contents of slots `drainSlot s.idx 0 .. drainSlot s.idx (n-1)`; the cursor
advances exactly once per call; every drained slot ends `buffer_empty` and
wiped, and every other slot is untouched. -/
theorem drainSeq_spec (cfg : JentConfig) (oracle : NoiseOracle)
    (eb0 : EntropyBuf) (k : Nat) (hk : k ≤ 32) (hb : cfg.blocks = 2 ^ k) :
    ∀ (n : Nat) (s : JentState),
    n ≤ cfg.blocks →
    s.lrng_jent_initialized = true →
    s.lrng_es_jent_async_enabled = true →
    s.idx < 2 ^ 32 →
    s.lrng_jent_async.length = cfg.blocks →
    s.lrng_jent_async_set.length = cfg.blocks →
    (∀ j, j < n →
      s.lrng_jent_async_set.getD (drainSlot cfg s.idx j) buffer_empty = buffer_filled) →
    (drainSeq cfg oracle eb0 cfg.stdBits n s).2.length = n ∧
    (∀ j, j < n →
      (drainSeq cfg oracle eb0 cfg.stdBits n s).2.getD j ⟨[], 0⟩ =
        ⟨writeBytes eb0.e
            (s.lrng_jent_async.getD (drainSlot cfg s.idx j) ⟨[], 0⟩).e cfg.seedBytes,
          (s.lrng_jent_async.getD (drainSlot cfg s.idx j) ⟨[], 0⟩).e_bits⟩) ∧
    (drainSeq cfg oracle eb0 cfg.stdBits n s).1.idx = (s.idx + n) % 2 ^ 32 ∧
    (∀ i, i < cfg.blocks → (∃ j, j < n ∧ drainSlot cfg s.idx j = i) →
      (drainSeq cfg oracle eb0 cfg.stdBits n s).1.lrng_jent_async_set.getD i buffer_empty
          = buffer_empty ∧
      (drainSeq cfg oracle eb0 cfg.stdBits n s).1.lrng_jent_async.getD i ⟨[], 0⟩
          = zeroSlot cfg) ∧
    (∀ i, i < cfg.blocks → (¬∃ j, j < n ∧ drainSlot cfg s.idx j = i) →
      (drainSeq cfg oracle eb0 cfg.stdBits n s).1.lrng_jent_async_set.getD i buffer_empty
          = s.lrng_jent_async_set.getD i buffer_empty ∧
      (drainSeq cfg oracle eb0 cfg.stdBits n s).1.lrng_jent_async.getD i ⟨[], 0⟩
          = s.lrng_jent_async.getD i ⟨[], 0⟩) := by
  intro n
  induction n with
  | zero =>
    intro s hn hinit hen hidx hl1 hl2 hfilled
    refine ⟨rfl, ?_, ?_, ?_, ?_⟩
    · intro j hj
      exact absurd hj (Nat.not_lt_zero j)
    · simp only [drainSeq]
      omega
    · rintro i hi ⟨j, hj, -⟩
      exact absurd hj (Nat.not_lt_zero j)
    · intro i hi _
      exact ⟨rfl, rfl⟩
  | succ n ih =>
    intro s hn hinit hen hidx hl1 hl2 hfilled
    have hblockpos : 0 < cfg.blocks := by
      rw [hb]; exact pow_pos (by decide) k
    have hdlt : ∀ j, drainSlot cfg s.idx j < cfg.blocks :=
      fun j => Nat.mod_lt _ hblockpos
    have hdinj : ∀ j j', j < cfg.blocks → j' < cfg.blocks →
        drainSlot cfg s.idx j = drainSlot cfg s.idx j' → j = j' :=
      fun j j' a b h => add_mod_inj (s.idx + 1) j j' cfg.blocks a b h
    have hc0 : drainSlot cfg s.idx 0
        = ((s.idx + 1) % 2 ^ 32) &&& LRNG_JENT_ENTROPY_BLOCKS_MASK cfg := by
      rw [mask_slot_eq_mod cfg k (s.idx + 1) hk hb]
      unfold drainSlot
      rfl
    have hgc : lrng_jent_get_check cfg oracle s eb0 cfg.stdBits
        = lrng_jent_async_get cfg oracle s eb0 cfg.stdBits := by
      unfold lrng_jent_get_check
      rw [if_pos ⟨hen, rfl⟩]
    have hfields := drain_step_fields cfg oracle s eb0 cfg.stdBits
      (drainSlot cfg s.idx 0) hc0 hinit (hfilled 0 (Nat.succ_pos n))
    rw [← hgc] at hfields
    have hs1idx : (lrng_jent_get_check cfg oracle s eb0 cfg.stdBits).2.idx
        = (s.idx + 1) % 2 ^ 32 := hfields.2.1
    have hs1pool : (lrng_jent_get_check cfg oracle s eb0 cfg.stdBits).2.lrng_jent_async
        = s.lrng_jent_async.set (drainSlot cfg s.idx 0) (zeroSlot cfg) := hfields.2.2.1
    have hs1set : (lrng_jent_get_check cfg oracle s eb0 cfg.stdBits).2.lrng_jent_async_set
        = s.lrng_jent_async_set.set (drainSlot cfg s.idx 0) buffer_empty := hfields.2.2.2.1
    have hshift : ∀ j, drainSlot cfg
        ((lrng_jent_get_check cfg oracle s eb0 cfg.stdBits).2.idx) j
        = drainSlot cfg s.idx (j + 1) := by
      intro j
      unfold drainSlot
      rw [hs1idx, hb, Nat.add_assoc ((s.idx + 1) % 2 ^ 32) 1 j,
        mod_pow_add32 (s.idx + 1) (1 + j) k hk]
      have h1j : s.idx + 1 + (1 + j) = s.idx + 1 + (j + 1) := by omega
      rw [h1j]
    have hne0 : ∀ j, j + 1 < n + 1 →
        drainSlot cfg s.idx 0 ≠ drainSlot cfg s.idx (j + 1) := by
      intro j hj h
      have := hdinj 0 (j + 1) hblockpos (by omega) h
      omega
    have ihr := ih (lrng_jent_get_check cfg oracle s eb0 cfg.stdBits).2
      (by omega) (hfields.2.2.2.2.1.trans hinit) (hfields.2.2.2.2.2.trans hen)
      (by rw [hs1idx]; exact Nat.mod_lt _ (by norm_num))
      (by rw [hs1pool, List.length_set]; exact hl1)
      (by rw [hs1set, List.length_set]; exact hl2)
      (by
        intro j hj
        rw [hshift j, hs1set,
          getD_set_other (hne0 j (by omega))]
        exact hfilled (j + 1) (by omega))
    have hD1 : (drainSeq cfg oracle eb0 cfg.stdBits (n + 1) s).1
        = (drainSeq cfg oracle eb0 cfg.stdBits n
            (lrng_jent_get_check cfg oracle s eb0 cfg.stdBits).2).1 := rfl
    have hD2 : (drainSeq cfg oracle eb0 cfg.stdBits (n + 1) s).2
        = (lrng_jent_get_check cfg oracle s eb0 cfg.stdBits).1
          :: (drainSeq cfg oracle eb0 cfg.stdBits n
              (lrng_jent_get_check cfg oracle s eb0 cfg.stdBits).2).2 := rfl
    refine ⟨?_, ?_, ?_, ?_, ?_⟩
    · rw [hD2, List.length_cons, ihr.1]
    · intro j hj
      match j with
      | 0 =>
        rw [hD2, List.getD_cons_zero]
        exact hfields.1
      | j' + 1 =>
        have hout := ihr.2.1 j' (by omega)
        rw [hshift j'] at hout
        rw [hs1pool, getD_set_other (hne0 j' (by omega))] at hout
        rw [hD2, List.getD_cons_succ]
        exact hout
    · rw [hD1, ihr.2.2.1, hs1idx, mod_pow_add32 (s.idx + 1) n 32 (Nat.le_refl 32)]
      have : s.idx + 1 + n = s.idx + (n + 1) := by omega
      rw [this]
    · rintro i hi ⟨j, hj, hdj⟩
      match j with
      | 0 =>
        subst hdj
        have hnone : ¬∃ j', j' < n ∧ drainSlot cfg
            ((lrng_jent_get_check cfg oracle s eb0 cfg.stdBits).2.idx) j'
            = drainSlot cfg s.idx 0 := by
          rintro ⟨j', hj', h⟩
          rw [hshift j'] at h
          exact hne0 j' (by omega) h.symm
        have hframe := ihr.2.2.2.2 (drainSlot cfg s.idx 0) (hdlt 0) hnone
        rw [hD1]
        constructor
        · rw [hframe.1, hs1set, getD_set_self (hl2 ▸ hdlt 0)]
        · rw [hframe.2, hs1pool, getD_set_self (hl1 ▸ hdlt 0)]
      | j' + 1 =>
        have hdrained := ihr.2.2.2.1 i hi
          ⟨j', by omega, by rw [hshift j']; exact hdj⟩
        rw [hD1]
        exact hdrained
    · intro i hi hnone
      have hne_i : drainSlot cfg s.idx 0 ≠ i := by
        intro h
        exact hnone ⟨0, by omega, h⟩
      have hnone' : ¬∃ j', j' < n ∧ drainSlot cfg
          ((lrng_jent_get_check cfg oracle s eb0 cfg.stdBits).2.idx) j' = i := by
        rintro ⟨j', hj', h⟩
        rw [hshift j'] at h
        exact hnone ⟨j' + 1, by omega, h⟩
      have hframe := ihr.2.2.2.2 i hi hnone'
      rw [hD1]
      constructor
      · rw [hframe.1, hs1set, getD_set_other hne_i]
      · rw [hframe.2, hs1pool, getD_set_other hne_i]
/-- Writing a full-length source over a same-length destination replaces it
entirely. -/
theorem writeBytes_full (dst src : List Byte) (n : Nat)
    (hd : dst.length = n) (hs : src.length = n) : writeBytes dst src n = src := by
  unfold writeBytes
  subst hs
  rw [List.take_length, List.drop_eq_nil_of_le (le_of_eq hd), List.append_nil]

/-- Claim C4: the shared consumer cursor advances atomically exactly once per
pool-path call, so a sequence of `n ≤ SIZE` pool-path calls made after every
slot has been filled returns distinct slots' contents exactly once each, in
increasing cursor order modulo SIZE (call `j` returns slot
`(idx + 1 + j) % SIZE`), and leaves each drained slot in state `buffer_empty`
with an all-zero buffer. -/
theorem C4_round_robin_drain (cfg : JentConfig) (oracle : NoiseOracle)
    (eb0 : EntropyBuf) (k n : Nat)
    (hk : k ≤ 32) (hb : cfg.blocks = 2 ^ k) (hn : n ≤ cfg.blocks)
    (s : JentState)
    (hinit : s.lrng_jent_initialized = true)
    (hen : s.lrng_es_jent_async_enabled = true)
    (hidx : s.idx < 2 ^ 32)
    (hl1 : s.lrng_jent_async.length = cfg.blocks)
    (hl2 : s.lrng_jent_async_set.length = cfg.blocks)
    (hall : ∀ i, i < cfg.blocks →
      s.lrng_jent_async_set.getD i buffer_empty = buffer_filled)
    (hbuf : ∀ i, i < cfg.blocks →
      (s.lrng_jent_async.getD i ⟨[], 0⟩).e.length = cfg.seedBytes)
    (heb : eb0.e.length = cfg.seedBytes) :
    (drainSeq cfg oracle eb0 cfg.stdBits n s).2.length = n ∧
    (∀ j, j < n →
      (drainSeq cfg oracle eb0 cfg.stdBits n s).2.getD j ⟨[], 0⟩ =
        ⟨(s.lrng_jent_async.getD (drainSlot cfg s.idx j) ⟨[], 0⟩).e,
          (s.lrng_jent_async.getD (drainSlot cfg s.idx j) ⟨[], 0⟩).e_bits⟩) ∧
    (∀ j j', j < n → j' < n → j ≠ j' →
      drainSlot cfg s.idx j ≠ drainSlot cfg s.idx j') ∧
    (drainSeq cfg oracle eb0 cfg.stdBits n s).1.idx = (s.idx + n) % 2 ^ 32 ∧
    (∀ j, j < n →
      (drainSeq cfg oracle eb0 cfg.stdBits n s).1.lrng_jent_async_set.getD
          (drainSlot cfg s.idx j) buffer_empty = buffer_empty ∧
      (drainSeq cfg oracle eb0 cfg.stdBits n s).1.lrng_jent_async.getD
          (drainSlot cfg s.idx j) ⟨[], 0⟩ = zeroSlot cfg) := by
  have hblockpos : 0 < cfg.blocks := by rw [hb]; exact pow_pos (by decide) k
  have hdlt : ∀ j, drainSlot cfg s.idx j < cfg.blocks :=
    fun j => Nat.mod_lt _ hblockpos
  have hspec := drainSeq_spec cfg oracle eb0 k hk hb n s hn hinit hen hidx hl1 hl2
    (fun j _ => hall (drainSlot cfg s.idx j) (hdlt j))
  refine ⟨hspec.1, ?_, ?_, hspec.2.2.1, ?_⟩
  · intro j hj
    rw [hspec.2.1 j hj, writeBytes_full eb0.e _ cfg.seedBytes heb
      (hbuf (drainSlot cfg s.idx j) (hdlt j))]
  · intro j j' hj hj' hne h
    exact hne (add_mod_inj (s.idx + 1) j j' cfg.blocks (by omega) (by omega) h)
  · intro j hj
    exact hspec.2.2.2.1 (drainSlot cfg s.idx j) (hdlt j) ⟨j, hj, rfl⟩

/-- Claim C4 witness: from the full 4-slot pool, 4 standard-size pool-path
calls return 4 entries, the first being slot 0's contents, and advance the
cursor by exactly 4. -/
theorem C4_round_robin_drain_witness :
    (4 : Nat) ≤ cfg4.blocks ∧
    (drainSeq cfg4 oracleOk ⟨[9, 9, 9, 9], 7⟩ cfg4.stdBits 4 sFull).2.length = 4 ∧
    (drainSeq cfg4 oracleOk ⟨[9, 9, 9, 9], 7⟩ cfg4.stdBits 4 sFull).2.getD 0 ⟨[], 0⟩
        = ⟨(sFull.lrng_jent_async.getD (drainSlot cfg4 sFull.idx 0) ⟨[], 0⟩).e,
           (sFull.lrng_jent_async.getD (drainSlot cfg4 sFull.idx 0) ⟨[], 0⟩).e_bits⟩ ∧
    (drainSeq cfg4 oracleOk ⟨[9, 9, 9, 9], 7⟩ cfg4.stdBits 4 sFull).1.idx
        = (sFull.idx + 4) % 2 ^ 32 :=
  ⟨by decide,
   (C4_round_robin_drain cfg4 oracleOk ⟨[9, 9, 9, 9], 7⟩ 2 4 (by decide) (by decide)
      (by decide) sFull rfl rfl (by decide) (by decide) (by decide) (by decide)
      (by decide) (by decide)).1,
   (C4_round_robin_drain cfg4 oracleOk ⟨[9, 9, 9, 9], 7⟩ 2 4 (by decide) (by decide)
      (by decide) sFull rfl rfl (by decide) (by decide) (by decide) (by decide)
      (by decide) (by decide)).2.1 0 (by decide),
   (C4_round_robin_drain cfg4 oracleOk ⟨[9, 9, 9, 9], 7⟩ 2 4 (by decide) (by decide)
      (by decide) sFull rfl rfl (by decide) (by decide) (by decide) (by decide)
      (by decide) (by decide)).2.2.2.1⟩

end LrngJent
